import Mathlib

/-!
# zerotrust-exporter: the device collection cycle

A shallow embedding of `internal/devices/devices.go`.

* `DeviceStatus` is the decoded JSON record.
* A Go `map[string]T` is an association list with unique keys (`mapSet`, `mapGet`);
  the unspecified iteration order of `range` over a map is a `RangeOrder`.
* The process-wide metric state (`Metrics`) holds the two counters and the level gauge of
  package `appmetrics` and the gauge registry of `github.com/VictoriaMetrics/metrics`.
* `metrics.GetOrCreateGauge` panics on a new name that its validator rejects. The validator is
  library code, so the cycle takes it as a parameter `valid`; `validateMetric` is the
  library's validator, used wherever a concrete input is run.
* A cycle ends in one of three ways (`Ending`): it returns nil, it returns the filtered map,
  or it panics inside the gauge loop and returns nothing.
* The outside world of one cycle (`HttpOutcome`) is what `http.NewRequestWithContext`,
  `http.DefaultClient.Do`, `io.ReadAll` and `json.Decoder.Decode` hand back.
* Logging (`log.Printf`, `log.Println`) has no effect on the modelled state and is dropped.
-/

namespace Devices

/-! ## Data model -/

/-- One record of the `result` array, field for field as in the Go struct. -/
structure DeviceStatus where
  Colo : String
  Mode : String
  Status : String
  Platform : String
  Version : String
  Timestamp : String
  DeviceName : String
  DeviceID : String
  PersonEmail : String
deriving DecidableEq, Repr

/-- A Go `m[k] = v` on a map kept as an association list: an existing key keeps its slot and
gets the new value, a new key is appended. -/
def mapSet {α : Type} : List (String × α) → String → α → List (String × α)
  | [], k, v => [(k, v)]
  | (k', v') :: rest, k, v =>
    if k' = k then (k, v) :: rest else (k', v') :: mapSet rest k v

/-- A Go `v, ok := m[k]`: the value stored under `k`, if any. -/
def mapGet {α : Type} : List (String × α) → String → Option α
  | [], _ => none
  | (k', v') :: rest, k => if k' = k then some v' else mapGet rest k

/-- The order in which one `for ... := range m` visits the entries of a map: some rearrangement
of the entries, not fixed by the language. -/
structure RangeOrder where
  visit : List (String × DeviceStatus) → List (String × DeviceStatus)
  visit_perm : ∀ m, (visit m).Perm m

/-- Visit the entries in insertion order. -/
def RangeOrder.forward : RangeOrder := ⟨fun m => m, fun m => List.Perm.refl m⟩

/-- Visit the entries in reverse insertion order. -/
def RangeOrder.backward : RangeOrder := ⟨fun m => m.reverse, fun m => List.reverse_perm m⟩

/-! ## Metric state -/

/-- The process-wide metric state touched by a cycle: the API-call counter, the API-error
counter and the level gauge `up` of package `appmetrics`, and the gauges of the registry of the
metrics library that can be set (gauge name with its label set, mapped to the gauge value).
The only value this code ever writes is `1`, so values are integers. -/
structure Metrics where
  apiCalls : Nat
  apiErrors : Nat
  up : Int
  gauges : List (String × Int)
deriving DecidableEq, Repr

/-- Modelled from the spec: `appmetrics.IncApiCallCounter` (package `internal/appmetrics` is not
among the sources) adds one to the monotone counter `api_calls_total`. -/
def IncApiCallCounter (s : Metrics) : Metrics := { s with apiCalls := s.apiCalls + 1 }

/-- Modelled from the spec: `appmetrics.IncApiErrorsCounter` (package `internal/appmetrics` is
not among the sources) adds one to the monotone counter `api_errors_total`. -/
def IncApiErrorsCounter (s : Metrics) : Metrics := { s with apiErrors := s.apiErrors + 1 }

/-- Modelled from the spec: `appmetrics.SetUpMetric` (package `internal/appmetrics` is not among
the sources) overwrites the level gauge `up` with the given value. -/
def SetUpMetric (v : Int) (s : Metrics) : Metrics := { s with up := v }

/-- The library call `metrics.GetOrCreateGauge(name, nil).Set(v)`. A name that is registered is
looked up and its gauge set. A name that is not registered is first put to the validator
`valid`: when it passes, the gauge is created and set; when it fails, the call panics (`none`)
and the registry is left as it was. -/
def setGauge (valid : String → Bool) (s : Metrics) (name : String) (v : Int) :
    Option Metrics :=
  match mapGet s.gauges name with
  | some _ => some { s with gauges := mapSet s.gauges name v }
  | none =>
    if valid name then some { s with gauges := mapSet s.gauges name v }
    else none

/-- The registry takes the name: it is registered already, or the validator passes it. -/
def accepts (valid : String → Bool) (gauges : List (String × Int)) (name : String) : Bool :=
  (mapGet gauges name).isSome || valid name

/-! ## The validator of the metrics library -/

/-- First character of the identifier pattern `^[a-zA-Z_:.][a-zA-Z0-9_:.]*$`. -/
def identStart (c : Char) : Bool := c.isAlpha || c = '_' || c = ':' || c = '.'

/-- Later characters of the identifier pattern. -/
def identChar (c : Char) : Bool := identStart c || c.isDigit

/-- The check `validateIdent`: the whole string matches the identifier pattern. -/
def validateIdent (s : List Char) : Bool :=
  match s with
  | [] => false
  | c :: rest => identStart c && rest.all identChar

/-- Where the scan of `validateTags` stands: at the first character of a label key, inside a
key, at the opening quote of a value, inside a value (`escaped` tells whether an odd run of
backslashes comes right before), right after a closing quote, or in the blanks that may follow
a comma. -/
inductive TagScan where
  | key
  | keyRest
  | quote
  | value (escaped : Bool)
  | next
  | blank

/-- The loop of `validateTags`, read one character at a time. Each round takes a key up to the
first `=` and checks it as an identifier, wants a double quote, takes the value up to the
first double quote that has an even number of backslashes right before it, and then wants
either the end of the text or a comma, after which blanks are skipped and the next round
starts. -/
def scanTags : TagScan → List Char → Bool
  | .key, [] => false
  | .key, c :: rest => identStart c && scanTags .keyRest rest
  | .keyRest, [] => false
  | .keyRest, c :: rest =>
    if c = '=' then scanTags .quote rest else identChar c && scanTags .keyRest rest
  | .quote, [] => false
  | .quote, c :: rest => c = '"' && scanTags (.value false) rest
  | .value _, [] => false
  | .value escaped, c :: rest =>
    if c = '"' then (if escaped then scanTags (.value false) rest else scanTags .next rest)
    else if c = '\\' then scanTags (.value (!escaped)) rest
    else scanTags (.value false) rest
  | .next, [] => true
  | .next, c :: rest => c = ',' && scanTags .blank rest
  | .blank, [] => false
  | .blank, c :: rest =>
    if c = ' ' then scanTags .blank rest else identStart c && scanTags .keyRest rest

/-- The check `validateTags`: the empty text passes, any other text is scanned. -/
def validateTags (s : List Char) : Bool :=
  match s with
  | [] => true
  | _ => scanTags .key s

/-- The validator of the metrics library, `true` when it returns no error: the name is not
empty and holds no line break; without an opening brace it is an identifier; with one, the
part before the brace is an identifier, the name ends in a closing brace, and what stands
between the two braces passes `validateTags`. -/
def validateMetric (name : String) : Bool :=
  let s := name.data
  if s = [] then false
  else if '\n' ∈ s then false
  else
    match s.dropWhile (fun c => c != '\x7b') with
    | [] => validateIdent s
    | _ :: tags =>
      validateIdent (s.takeWhile (fun c => c != '\x7b')) &&
        (match tags.getLast? with
         | some c => c = '\x7d' && validateTags tags.dropLast
         | none => false)

/-! ## Clock and query window -/

/-- An instant, in nanoseconds since the Unix epoch. -/
abbrev Time := Int

/-- Nanoseconds in one second (`time.Second`). -/
def Second : Int := 1000000000

/-- Nanoseconds in one minute (`time.Minute`). -/
def Minute : Int := 60 * Second

/-- The method `t.Unix()`: whole seconds since the epoch, rounded down. -/
def Time.Unix (t : Time) : Int := Int.fdiv t Second

/-- The method `t.Add(d)`. -/
def Time.Add (t : Time) (d : Int) : Time := t + d

/-- The constructor `time.Unix(sec, nsec)`. -/
def timeUnix (sec nsec : Int) : Time := sec * Second + nsec

/-- The instant formatted into `time_end` (line 45): `time.Unix(time.Now().Unix(), 0)`, where
`now` is the clock reading of that line. -/
def timeEnd (now : Time) : Time := timeUnix (Time.Unix now) 0

/-- The instant formatted into `time_start` (line 46):
`time.Unix(time.Now().Add(-time.Minute*10).Unix(), 0)`, where `now` is the clock reading of that
line, taken after the one of `timeEnd`. -/
def timeStart (now : Time) : Time := timeUnix (Time.Unix (Time.Add now (-Minute * 10))) 0

/-- A query parameter value: a literal string, or an instant rendered with
`Format(time.RFC3339)`. -/
inductive QueryValue where
  | text (s : String)
  | rfc3339 (t : Time)
deriving DecidableEq, Repr

/-- The query parameters in the order of the `q.Add` calls; `now1` and `now2` are the two
successive readings of `time.Now()`. -/
def queryParams (now1 now2 : Time) : List (String × QueryValue) :=
  [ ("per_page", .text "50"),
    ("page", .text "1"),
    ("time_end", .rfc3339 (timeEnd now1)),
    ("time_start", .rfc3339 (timeStart now2)),
    ("sort_by", .text "device_id"),
    ("status", .text "connected"),
    ("source", .text "last_seen") ]

/-- The instant carried by the query parameter `key`, when it is one. -/
def queryTime (q : List (String × QueryValue)) (key : String) : Option Time :=
  match q.lookup key with
  | some (.rfc3339 t) => some t
  | _ => none

/-! ## The fetch -/

/-- What the HTTP client hands back for a request that was sent: the numeric status code, the
status line (`resp.Status`), the raw body as read by `io.ReadAll`, and the outcome of
`json.NewDecoder(resp.Body).Decode(&response)` on that body (the decoded `result` array, or the
decoder's error). -/
structure Response where
  StatusCode : Int
  Status : String
  Body : String
  Decoded : Except String (List DeviceStatus)

/-- The outside world of one call of `fetchDeviceStatus`. -/
inductive HttpOutcome where
  /-- The call `http.NewRequestWithContext` returned an error (the URL built from the account
  ID does not parse). -/
  | requestError (err : String)
  /-- The call `http.DefaultClient.Do` returned an error. -/
  | sendError (err : String)
  /-- A response arrived. -/
  | response (resp : Response)

/-- The constant `http.StatusOK`. -/
def StatusOK : Int := 200

/-- The message of the `fmt.Errorf` of line 65. -/
def upstreamError (status body : String) : String :=
  "failed to fetch device status: " ++ status ++ ", response body: " ++ body

/-- The loop of lines 77 to 80: every decoded record is stored under its `DeviceID`. -/
def buildDeviceStatuses (result : List DeviceStatus) : List (String × DeviceStatus) :=
  result.foldl (fun deviceStatuses deviceStatus =>
    mapSet deviceStatuses deviceStatus.DeviceID deviceStatus) []

/-- The function `fetchDeviceStatus`: the returned pair `(map, error)` as an `Except`, together
with the metric state it leaves behind. -/
def fetchDeviceStatus (out : HttpOutcome) (s : Metrics) :
    Except String (List (String × DeviceStatus)) × Metrics :=
  match out with
  | .requestError err => (.error err, SetUpMetric 0 (IncApiErrorsCounter s))
  | .sendError err => (.error err, s)
  | .response resp =>
    let s := IncApiCallCounter s
    if resp.StatusCode ≠ StatusOK then
      (.error (upstreamError resp.Status resp.Body), s)
    else
      match resp.Decoded with
      | .error err => (.error err, s)
      | .ok result => (.ok (buildDeviceStatuses result), s)

/-! ## The cycle -/

/-- The `fmt.Sprintf` of line 110. -/
def metricName (deviceID : String) (status : DeviceStatus) : String :=
  "zerotrust_devices_up\x7bdevice_id=\"" ++ deviceID ++
  "\", device_name=\"" ++ status.DeviceName ++
  "\", user_email=\"" ++ status.PersonEmail ++
  "\", colo=\"" ++ status.Colo ++
  "\", mode=\"" ++ status.Mode ++
  "\", platform=\"" ++ status.Platform ++
  "\", version=\"" ++ status.Version ++ "\"\x7d"

/-- The loop of lines 102 to 107 over the entries in the order `range` visits them. -/
def filterConnected (visited : List (String × DeviceStatus)) : List (String × DeviceStatus) :=
  visited.foldl (fun filteredDevices kv =>
    if kv.2.Status = "connected" then mapSet filteredDevices kv.2.DeviceID kv.2
    else filteredDevices) []

/-- The loop of lines 109 to 113 over the entries in the order `range` visits them: `.ok` with
the state after the last entry when every call goes through, `.error` with the state reached
when a call panics. -/
def setGauges (valid : String → Bool) :
    List (String × DeviceStatus) → Metrics → Except Metrics Metrics
  | [], s => .ok s
  | kv :: rest, s =>
    match setGauge valid s (metricName kv.1 kv.2) 1 with
    | some s => setGauges valid rest s
    | none => .error s

/-- How one call of `CollectDeviceMetrics` ends: it returns nil, it returns the map
`filteredDevices`, or `metrics.GetOrCreateGauge` panics in the loop over `filteredDevices` and
nothing is returned. -/
inductive Ending where
  | returnedNil
  | returned (filteredDevices : List (String × DeviceStatus))
  | panicked (filteredDevices : List (String × DeviceStatus))
deriving DecidableEq, Repr

/-- The function `CollectDeviceMetrics`: how the call ends and the metric state it leaves.
The parameter `valid` is the validator of the registry, `o1` and `o2` are the iteration orders
of the two `range` loops. -/
def CollectDeviceMetrics (valid : String → Bool) (o1 o2 : RangeOrder) (out : HttpOutcome)
    (s : Metrics) : Ending × Metrics :=
  let s := IncApiCallCounter s
  match fetchDeviceStatus out s with
  | (.error _, s) => (.returnedNil, SetUpMetric 0 (IncApiErrorsCounter s))
  | (.ok deviceStatuses, s) =>
    let filteredDevices := filterConnected (o1.visit deviceStatuses)
    match setGauges valid (o2.visit filteredDevices) s with
    | .ok s => (.returned filteredDevices, s)
    | .error s => (.panicked filteredDevices, s)

/-- The records the filter loop stores, in the order it meets them. -/
def connectedRecords (visited : List (String × DeviceStatus)) : List DeviceStatus :=
  (visited.filter (fun kv => kv.2.Status = "connected")).map Prod.snd

/-- The gauge names of the records of this cycle's filtered map. -/
def gaugeNames (ending : Ending) : List String :=
  match ending with
  | .returnedNil => []
  | .returned filteredDevices => filteredDevices.map (fun kv => metricName kv.1 kv.2)
  | .panicked filteredDevices => filteredDevices.map (fun kv => metricName kv.1 kv.2)

/-- A successful HTTP exchange: status `200 OK` and a body that decodes to `result`. -/
def okResponse (body : String) (result : List DeviceStatus) : HttpOutcome :=
  .response ⟨200, "200 OK", body, .ok result⟩

/-- The last record of the list that carries the device ID `id`. -/
def lastWithID (result : List DeviceStatus) (id : String) : Option DeviceStatus :=
  (result.filter (fun r => r.DeviceID = id)).getLast?

/-! ## The label set the specification prescribes -/

/-- The seven labels of a device gauge, in the order of the specification, each taken from
the record field the specification names. -/
def labelSet (r : DeviceStatus) : List (String × String) :=
  [ ("device_id", r.DeviceID),
    ("device_name", r.DeviceName),
    ("user_email", r.PersonEmail),
    ("colo", r.Colo),
    ("mode", r.Mode),
    ("platform", r.Platform),
    ("version", r.Version) ]

/-- One label, written `key="value"` with the value passed through as it is. -/
def renderLabel (kv : String × String) : String := kv.1 ++ "=\"" ++ kv.2 ++ "\""

/-- The labels, joined by a comma and a blank. -/
def renderLabels : List (String × String) → String
  | [] => ""
  | [kv] => renderLabel kv
  | kv :: rest => renderLabel kv ++ ", " ++ renderLabels rest

/-- A gauge identity: the metric name followed by the label set in braces. -/
def renderGauge (name : String) (labels : List (String × String)) : String :=
  name ++ "\x7b" ++ renderLabels labels ++ "\x7d"

/-- The seven label values of a record hold no double-quote character. -/
def quoteFree (r : DeviceStatus) : Prop :=
  ∀ v ∈ (labelSet r).map Prod.snd, '"' ∉ v.data

instance (r : DeviceStatus) : Decidable (quoteFree r) := by
  unfold quoteFree
  exact inferInstance

/-! ## Sample data -/

/-- A sample record; the fields not given are empty, as for a JSON object that omits them. -/
def sampleDevice (id name status : String) : DeviceStatus :=
  ⟨"", "", status, "", "", "", name, id, ""⟩

/-- A response body in which the device ID `a` occurs twice, first connected, then not. -/
def repeatedBody : String :=
  "\x7b\"result\":[\x7b\"deviceId\":\"a\",\"deviceName\":\"x\",\"status\":\"connected\"\x7d," ++
  "\x7b\"deviceId\":\"a\",\"deviceName\":\"y\",\"status\":\"disconnected\"\x7d]\x7d"

/-- The records `repeatedBody` decodes to. -/
def repeatedResult : List DeviceStatus :=
  [sampleDevice "a" "x" "connected", sampleDevice "a" "y" "disconnected"]

/-- A response body with two connected devices and one that is not. -/
def fleetBody : String :=
  "\x7b\"result\":[\x7b\"deviceId\":\"a\",\"deviceName\":\"x\",\"status\":\"connected\"\x7d," ++
  "\x7b\"deviceId\":\"b\",\"deviceName\":\"y\",\"status\":\"disconnected\"\x7d," ++
  "\x7b\"deviceId\":\"c\",\"deviceName\":\"z\",\"status\":\"connected\"\x7d]\x7d"

/-- The records `fleetBody` decodes to. -/
def fleetResult : List DeviceStatus :=
  [sampleDevice "a" "x" "connected", sampleDevice "b" "y" "disconnected",
   sampleDevice "c" "z" "connected"]

/-- A response body with one connected device whose name ends in a backslash. -/
def backslashBody : String :=
  "\x7b\"result\":[\x7b\"deviceId\":\"a\",\"deviceName\":\"x\\\\\",\"status\":\"connected\"\x7d]\x7d"

/-- The record `backslashBody` decodes to. -/
def backslashDevice : DeviceStatus := sampleDevice "a" "x\\" "connected"

/-- A response body with one connected device whose name holds a double quote. -/
def quoteBody : String :=
  "\x7b\"result\":[\x7b\"deviceId\":\"q\",\"deviceName\":\"a\\\"b\",\"status\":\"connected\"\x7d]\x7d"

/-- The record `quoteBody` decodes to. -/
def quoteDevice : DeviceStatus := sampleDevice "q" "a\"b" "connected"

/-- A response body with an empty result array. -/
def emptyBody : String := "\x7b\"result\":[]\x7d"

/-- An empty metric state. -/
def Metrics.zero : Metrics := ⟨0, 0, 0, []⟩

/-- A gauge left in the registry by an earlier cycle, for a device that is gone since. -/
def staleGauge : String := metricName "gone" (sampleDevice "gone" "w" "connected")


/-! ## Association-list maps -/

theorem mapGet_mapSet {α : Type} (m : List (String × α)) (k k' : String) (v : α) :
    mapGet (mapSet m k v) k' = if k = k' then some v else mapGet m k' := by
  induction m with
  | nil => simp [mapSet, mapGet]
  | cons e rest ih =>
    obtain ⟨a, b⟩ := e
    by_cases h : a = k
    · subst h
      by_cases h' : a = k' <;> simp [mapSet, mapGet, h']
    · by_cases h' : a = k'
      · subst h'
        have : ¬ k = a := fun e => h e.symm
        simp [mapSet, mapGet, h, this]
      · simp [mapSet, mapGet, h, h', ih]

theorem keys_mapSet {α : Type} (m : List (String × α)) (k : String) (v : α) :
    (mapSet m k v).map Prod.fst =
      if k ∈ m.map Prod.fst then m.map Prod.fst else m.map Prod.fst ++ [k] := by
  induction m with
  | nil => simp [mapSet]
  | cons e rest ih =>
    obtain ⟨a, b⟩ := e
    by_cases h : a = k
    · subst h
      simp [mapSet]
    · have h' : ¬ k = a := fun e => h e.symm
      by_cases hk : k ∈ rest.map Prod.fst
      · have hk' : ∃ x, (k, x) ∈ rest := by simpa using hk
        simp [mapSet, h, h', ih, hk, hk']
      · have hk' : ¬ ∃ x, (k, x) ∈ rest := by simpa using hk
        simp [mapSet, h, h', ih, hk, hk']

theorem keys_nodup_mapSet {α : Type} (m : List (String × α)) (k : String) (v : α)
    (h : (m.map Prod.fst).Nodup) : ((mapSet m k v).map Prod.fst).Nodup := by
  rw [keys_mapSet]
  split
  · exact h
  · rename_i hk
    exact List.Nodup.append h (List.nodup_singleton k) (by simpa using hk)

theorem mem_of_mapGet {α : Type} (m : List (String × α)) (k : String) (v : α)
    (h : mapGet m k = some v) : (k, v) ∈ m := by
  induction m with
  | nil => simp [mapGet] at h
  | cons e rest ih =>
    obtain ⟨a, b⟩ := e
    by_cases hk : a = k
    · subst hk
      simp [mapGet] at h
      simp [h]
    · simp [mapGet, hk] at h
      exact List.mem_cons_of_mem _ (ih h)

theorem mapGet_of_mem {α : Type} (m : List (String × α)) (k : String) (v : α)
    (hn : (m.map Prod.fst).Nodup) (h : (k, v) ∈ m) : mapGet m k = some v := by
  induction m with
  | nil => simp at h
  | cons e rest ih =>
    obtain ⟨a, b⟩ := e
    simp only [List.map_cons, List.nodup_cons] at hn
    rcases List.mem_cons.mp h with h | h
    · injection h with h1 h2
      subst h1; subst h2
      simp [mapGet]
    · have hne : ¬ a = k := by
        intro e
        subst e
        exact hn.1 (List.mem_map.mpr ⟨(a, v), h, rfl⟩)
      simp [mapGet, hne, ih hn.2 h]

theorem mapGet_eq_none {α : Type} (m : List (String × α)) (k : String)
    (h : k ∉ m.map Prod.fst) : mapGet m k = none := by
  cases hg : mapGet m k with
  | none => rfl
  | some v => exact absurd (List.mem_map.mpr ⟨(k, v), mem_of_mapGet m k v hg, rfl⟩) h

theorem countP_eq_one_of_mem {α : Type} [DecidableEq α] (l : List α) (a : α) (hn : l.Nodup)
    (h : a ∈ l) : l.countP (fun e => decide (e = a)) = 1 := by
  induction l with
  | nil => simp at h
  | cons b l ih =>
    simp only [List.nodup_cons] at hn
    rcases List.mem_cons.mp h with h | h
    · subst h
      have h0 : l.countP (fun e => decide (e = a)) = 0 := by
        rw [List.countP_eq_zero]
        intro x hx
        simp only [decide_eq_true_eq]
        intro e
        subst e
        exact hn.1 hx
      simp [List.countP_cons, h0]
    · have hne : ¬ b = a := by
        intro e
        subst e
        exact hn.1 h
      simp [List.countP_cons, hne, ih hn.2 h]

theorem nodup_of_keys_nodup {α : Type} (m : List (String × α))
    (h : (m.map Prod.fst).Nodup) : m.Nodup :=
  List.Nodup.of_map Prod.fst h


/-! ## The result map of one fetch -/

theorem lastWithID_cons (r : DeviceStatus) (rs : List DeviceStatus) (k : String) :
    lastWithID (r :: rs) k = (lastWithID rs k).or (if r.DeviceID = k then some r else none) := by
  unfold lastWithID
  by_cases h : r.DeviceID = k
  · have e : List.filter (fun r => decide (r.DeviceID = k)) (r :: rs)
        = [r] ++ List.filter (fun r => decide (r.DeviceID = k)) rs := by
      simp [List.filter_cons, h]
    rw [e, List.getLast?_append]
    simp [h]
  · simp [List.filter_cons, h, Option.or_none]

theorem lastWithID_mem (rs : List DeviceStatus) (k : String) (v : DeviceStatus)
    (h : lastWithID rs k = some v) : v ∈ rs ∧ v.DeviceID = k := by
  unfold lastWithID at h
  obtain ⟨ys, hys⟩ := List.getLast?_eq_some_iff.mp h
  have hv : v ∈ List.filter (fun r => decide (r.DeviceID = k)) rs := by
    rw [hys]; simp
  have := List.mem_filter.mp hv
  exact ⟨this.1, by simpa using this.2⟩

theorem lastWithID_eq_none (rs : List DeviceStatus) (k : String)
    (h : k ∉ rs.map DeviceStatus.DeviceID) : lastWithID rs k = none := by
  cases hl : lastWithID rs k with
  | none => rfl
  | some v =>
    have := lastWithID_mem rs k v hl
    exact absurd (List.mem_map.mpr ⟨v, this.1, this.2⟩) h

theorem lastWithID_isSome (rs : List DeviceStatus) (k : String)
    (h : k ∈ rs.map DeviceStatus.DeviceID) : ∃ v, lastWithID rs k = some v := by
  induction rs with
  | nil => simp at h
  | cons r rs ih =>
    rw [lastWithID_cons]
    by_cases hk : k ∈ rs.map DeviceStatus.DeviceID
    · obtain ⟨v, hv⟩ := ih hk
      exact ⟨v, by simp [hv]⟩
    · have hr : r.DeviceID = k := by
        simp only [List.map_cons, List.mem_cons] at h
        rcases h with h | h
        · exact h.symm
        · exact absurd h hk
      exact ⟨r, by simp [lastWithID_eq_none rs k hk, hr]⟩

theorem lastWithID_of_nodup (rs : List DeviceStatus) (v : DeviceStatus)
    (hn : (rs.map DeviceStatus.DeviceID).Nodup) (h : v ∈ rs) :
    lastWithID rs v.DeviceID = some v := by
  induction rs with
  | nil => simp at h
  | cons r rs ih =>
    simp only [List.map_cons, List.nodup_cons] at hn
    rw [lastWithID_cons]
    rcases List.mem_cons.mp h with h | h
    · subst h
      simp [lastWithID_eq_none rs v.DeviceID hn.1]
    · simp [ih hn.2 h]

theorem mapGet_foldl_mapSet (rs : List DeviceStatus) (m : List (String × DeviceStatus))
    (k : String) :
    mapGet (rs.foldl (fun acc r => mapSet acc r.DeviceID r) m) k
      = (lastWithID rs k).or (mapGet m k) := by
  induction rs generalizing m with
  | nil => simp [lastWithID]
  | cons r rs ih =>
    rw [List.foldl_cons, ih, mapGet_mapSet, lastWithID_cons]
    cases lastWithID rs k <;> by_cases h : r.DeviceID = k <;> simp [h]

theorem keys_nodup_foldl_mapSet (rs : List DeviceStatus) (m : List (String × DeviceStatus))
    (h : (m.map Prod.fst).Nodup) :
    ((rs.foldl (fun acc r => mapSet acc r.DeviceID r) m).map Prod.fst).Nodup := by
  induction rs generalizing m with
  | nil => simpa using h
  | cons r rs ih =>
    rw [List.foldl_cons]
    exact ih _ (keys_nodup_mapSet m r.DeviceID r h)

theorem mapGet_buildDeviceStatuses (rs : List DeviceStatus) (k : String) :
    mapGet (buildDeviceStatuses rs) k = lastWithID rs k := by
  unfold buildDeviceStatuses
  rw [mapGet_foldl_mapSet]
  simp [mapGet, Option.or_none]

theorem keys_nodup_buildDeviceStatuses (rs : List DeviceStatus) :
    ((buildDeviceStatuses rs).map Prod.fst).Nodup :=
  keys_nodup_foldl_mapSet rs [] (by simp)

theorem mem_buildDeviceStatuses (rs : List DeviceStatus) (k : String) (v : DeviceStatus) :
    (k, v) ∈ buildDeviceStatuses rs ↔ lastWithID rs k = some v := by
  rw [← mapGet_buildDeviceStatuses]
  exact ⟨mapGet_of_mem _ k v (keys_nodup_buildDeviceStatuses rs), mem_of_mapGet _ k v⟩

theorem mem_keys_buildDeviceStatuses (rs : List DeviceStatus) (k : String) :
    k ∈ (buildDeviceStatuses rs).map Prod.fst ↔ k ∈ rs.map DeviceStatus.DeviceID := by
  constructor
  · intro h
    obtain ⟨⟨a, v⟩, hm, rfl⟩ := List.mem_map.mp h
    have := lastWithID_mem rs a v ((mem_buildDeviceStatuses rs a v).mp hm)
    exact List.mem_map.mpr ⟨v, this.1, this.2⟩
  · intro h
    obtain ⟨v, hv⟩ := lastWithID_isSome rs k h
    exact List.mem_map.mpr ⟨(k, v), (mem_buildDeviceStatuses rs k v).mpr hv, rfl⟩

theorem length_buildDeviceStatuses (rs : List DeviceStatus) :
    (buildDeviceStatuses rs).length = (rs.map DeviceStatus.DeviceID).dedup.length := by
  have h1 : (buildDeviceStatuses rs).length
      = ((buildDeviceStatuses rs).map Prod.fst).toFinset.card := by
    rw [List.toFinset_card_of_nodup (keys_nodup_buildDeviceStatuses rs), List.length_map]
  have h2 : ((buildDeviceStatuses rs).map Prod.fst).toFinset
      = (rs.map DeviceStatus.DeviceID).toFinset := by
    ext k
    simp only [List.mem_toFinset]
    exact mem_keys_buildDeviceStatuses rs k
  rw [h1, h2, List.card_toFinset]


/-! ## The two loops of the cycle -/

theorem filterConnected_foldl (visited : List (String × DeviceStatus))
    (m : List (String × DeviceStatus)) :
    visited.foldl (fun filteredDevices kv =>
      if kv.2.Status = "connected" then mapSet filteredDevices kv.2.DeviceID kv.2
      else filteredDevices) m
    = (connectedRecords visited).foldl (fun acc r => mapSet acc r.DeviceID r) m := by
  induction visited generalizing m with
  | nil => simp [connectedRecords]
  | cons e rest ih =>
    by_cases h : e.2.Status = "connected"
    · simp only [connectedRecords] at ih
      simp [connectedRecords, List.filter_cons, h, ih]
    · simp only [connectedRecords] at ih
      simp [connectedRecords, List.filter_cons, h, ih]

theorem filterConnected_eq (visited : List (String × DeviceStatus)) :
    filterConnected visited = buildDeviceStatuses (connectedRecords visited) := by
  unfold filterConnected buildDeviceStatuses
  exact filterConnected_foldl visited []

theorem keys_nodup_filterConnected (visited : List (String × DeviceStatus)) :
    ((filterConnected visited).map Prod.fst).Nodup := by
  rw [filterConnected_eq]
  exact keys_nodup_buildDeviceStatuses _

theorem connectedRecords_ids_nodup (visited : List (String × DeviceStatus))
    (hn : (visited.map Prod.fst).Nodup) (hk : ∀ kv ∈ visited, kv.2.DeviceID = kv.1) :
    ((connectedRecords visited).map DeviceStatus.DeviceID).Nodup := by
  induction visited with
  | nil => simp [connectedRecords]
  | cons e rest ih =>
    simp only [List.map_cons, List.nodup_cons] at hn
    have ih' := ih hn.2 (fun kv h => hk kv (List.mem_cons_of_mem _ h))
    by_cases h : e.2.Status = "connected"
    · have e1 : connectedRecords (e :: rest) = e.2 :: connectedRecords rest := by
        simp [connectedRecords, List.filter_cons, h]
      rw [e1, List.map_cons, List.nodup_cons]
      refine ⟨?_, ih'⟩
      intro hmem
      obtain ⟨v, hv, hid⟩ := List.mem_map.mp hmem
      obtain ⟨kv, hkv, rfl⟩ := List.mem_map.mp hv
      have hkv' := (List.mem_filter.mp hkv).1
      apply hn.1
      refine List.mem_map.mpr ⟨kv, hkv', ?_⟩
      rw [← hk kv (List.mem_cons_of_mem _ hkv'), hid, hk e (List.mem_cons_self _ _)]
    · have e1 : connectedRecords (e :: rest) = connectedRecords rest := by
        simp [connectedRecords, List.filter_cons, h]
      rw [e1]
      exact ih'

theorem mem_filterConnected (rs : List DeviceStatus) (o1 : RangeOrder) (k : String)
    (v : DeviceStatus) :
    (k, v) ∈ filterConnected (o1.visit (buildDeviceStatuses rs))
      ↔ lastWithID rs k = some v ∧ v.Status = "connected" := by
  have hperm := o1.visit_perm (buildDeviceStatuses rs)
  have hmem : ∀ kv, kv ∈ o1.visit (buildDeviceStatuses rs) ↔ kv ∈ buildDeviceStatuses rs :=
    fun kv => hperm.mem_iff
  have hkeys : ((o1.visit (buildDeviceStatuses rs)).map Prod.fst).Nodup :=
    ((hperm.map Prod.fst).nodup_iff).mpr (keys_nodup_buildDeviceStatuses rs)
  have hid : ∀ kv ∈ o1.visit (buildDeviceStatuses rs), kv.2.DeviceID = kv.1 := by
    intro kv h
    exact (lastWithID_mem rs kv.1 kv.2
      ((mem_buildDeviceStatuses rs kv.1 kv.2).mp ((hmem kv).mp h))).2
  have hnd := connectedRecords_ids_nodup _ hkeys hid
  rw [filterConnected_eq, mem_buildDeviceStatuses]
  constructor
  · intro h
    obtain ⟨hv, hvk⟩ := lastWithID_mem _ k v h
    obtain ⟨kv, hkv, rfl⟩ := List.mem_map.mp hv
    obtain ⟨hin, hc⟩ := List.mem_filter.mp hkv
    have hl := (mem_buildDeviceStatuses rs kv.1 kv.2).mp ((hmem kv).mp hin)
    have hk1 : kv.1 = k := by rw [← hid kv hin, hvk]
    rw [hk1] at hl
    exact ⟨hl, by simpa using hc⟩
  · rintro ⟨hl, hc⟩
    have hin : (k, v) ∈ o1.visit (buildDeviceStatuses rs) :=
      (hmem (k, v)).mpr ((mem_buildDeviceStatuses rs k v).mpr hl)
    have hv : v ∈ connectedRecords (o1.visit (buildDeviceStatuses rs)) :=
      List.mem_map.mpr ⟨(k, v), List.mem_filter.mpr ⟨hin, by simpa using hc⟩, rfl⟩
    have := lastWithID_of_nodup _ v hnd hv
    rwa [(lastWithID_mem rs k v hl).2] at this

theorem setGauge_of_accepts (valid : String → Bool) (s : Metrics) (name : String) (v : Int)
    (h : accepts valid s.gauges name = true) :
    setGauge valid s name v = some { s with gauges := mapSet s.gauges name v } := by
  unfold setGauge
  unfold accepts at h
  cases hg : mapGet s.gauges name with
  | some w => rfl
  | none =>
    rw [hg] at h
    have hv : valid name = true := by simpa using h
    simp [hv]

theorem setGauge_some (valid : String → Bool) (s r : Metrics) (name : String) (v : Int)
    (h : setGauge valid s name v = some r) :
    r = { s with gauges := mapSet s.gauges name v } := by
  unfold setGauge at h
  cases hg : mapGet s.gauges name with
  | some w =>
    rw [hg] at h
    exact (Option.some.inj h).symm
  | none =>
    rw [hg] at h
    by_cases hv : valid name = true
    · simp [hv] at h
      exact h.symm
    · simp [hv] at h

theorem accepts_mapSet (valid : String → Bool) (g : List (String × Int)) (n m : String)
    (v : Int) (h : accepts valid g m = true) : accepts valid (mapSet g n v) m = true := by
  unfold accepts at h ⊢
  rw [mapGet_mapSet]
  by_cases e : n = m
  · simp [e]
  · simpa [e] using h

theorem setGauges_frame (valid : String → Bool) (visited : List (String × DeviceStatus))
    (s r : Metrics)
    (h : setGauges valid visited s = .ok r ∨ setGauges valid visited s = .error r) :
    r.apiCalls = s.apiCalls ∧ r.apiErrors = s.apiErrors ∧ r.up = s.up ∧
    ∀ n, n ∉ visited.map (fun kv => metricName kv.1 kv.2) →
      mapGet r.gauges n = mapGet s.gauges n := by
  induction visited generalizing s with
  | nil =>
    simp only [setGauges] at h
    rcases h with h | h
    · injection h with h
      subst h
      exact ⟨rfl, rfl, rfl, fun _ _ => rfl⟩
    · exact absurd h (by simp)
  | cons e rest ih =>
    simp only [setGauges] at h
    cases hg : setGauge valid s (metricName e.1 e.2) 1 with
    | none =>
      rw [hg] at h
      rcases h with h | h
      · exact absurd h (by simp)
      · injection h with h
        subst h
        exact ⟨rfl, rfl, rfl, fun _ _ => rfl⟩
    | some s1 =>
      rw [hg] at h
      have hs1 := setGauge_some valid s s1 _ 1 hg
      obtain ⟨h1, h2, h3, h4⟩ := ih s1 h
      subst hs1
      refine ⟨h1, h2, h3, ?_⟩
      intro n hn
      have hne : ¬ metricName e.1 e.2 = n := by
        intro e1
        exact hn (by simp [← e1])
      have hrest : n ∉ rest.map (fun kv => metricName kv.1 kv.2) := by
        intro hin
        exact hn (List.mem_cons_of_mem _ hin)
      rw [h4 n hrest]
      simp [mapGet_mapSet, hne]

theorem setGauges_ok_gauges (valid : String → Bool) (visited : List (String × DeviceStatus))
    (s r : Metrics) (h : setGauges valid visited s = .ok r) (n : String) :
    mapGet r.gauges n
      = if n ∈ visited.map (fun kv => metricName kv.1 kv.2) then some 1
        else mapGet s.gauges n := by
  induction visited generalizing s with
  | nil =>
    simp only [setGauges] at h
    injection h with h
    subst h
    simp
  | cons e rest ih =>
    simp only [setGauges] at h
    cases hg : setGauge valid s (metricName e.1 e.2) 1 with
    | none =>
      rw [hg] at h
      exact absurd h (by simp)
    | some s1 =>
      rw [hg] at h
      have hs1 := setGauge_some valid s s1 _ 1 hg
      rw [ih s1 h]
      subst hs1
      by_cases hin : n ∈ rest.map (fun kv => metricName kv.1 kv.2)
      · have hin2 : n ∈ (e :: rest).map (fun kv => metricName kv.1 kv.2) :=
          List.mem_cons_of_mem _ hin
        rw [if_pos hin, if_pos hin2]
      · rw [if_neg hin]
        by_cases hn : metricName e.1 e.2 = n
        · have hin2 : n ∈ (e :: rest).map (fun kv => metricName kv.1 kv.2) := by
            simp [← hn]
          rw [if_pos hin2]
          simp [mapGet_mapSet, hn]
        · have hin2 : n ∉ (e :: rest).map (fun kv => metricName kv.1 kv.2) := by
            intro h2
            rcases List.mem_cons.mp h2 with h2 | h2
            · exact hn h2.symm
            · exact hin h2
          rw [if_neg hin2]
          simp [mapGet_mapSet, hn]

theorem setGauges_ok_of_accepts (valid : String → Bool)
    (visited : List (String × DeviceStatus)) (s : Metrics)
    (h : ∀ kv ∈ visited, accepts valid s.gauges (metricName kv.1 kv.2) = true) :
    ∃ r, setGauges valid visited s = .ok r := by
  induction visited generalizing s with
  | nil => exact ⟨s, rfl⟩
  | cons e rest ih =>
    simp only [setGauges]
    rw [setGauge_of_accepts valid s _ 1 (h e (List.mem_cons_self _ _))]
    exact ih _ (fun kv hkv => accepts_mapSet valid s.gauges _ _ 1
      (h kv (List.mem_cons_of_mem _ hkv)))

/-! ## The cycle, outcome by outcome -/

theorem collect_requestError (valid : String → Bool) (o1 o2 : RangeOrder) (err : String)
    (s : Metrics) :
    CollectDeviceMetrics valid o1 o2 (.requestError err) s
      = (.returnedNil, ⟨s.apiCalls + 1, s.apiErrors + 2, 0, s.gauges⟩) := rfl

theorem collect_sendError (valid : String → Bool) (o1 o2 : RangeOrder) (err : String)
    (s : Metrics) :
    CollectDeviceMetrics valid o1 o2 (.sendError err) s
      = (.returnedNil, ⟨s.apiCalls + 1, s.apiErrors + 1, 0, s.gauges⟩) := rfl

theorem collect_badStatus (valid : String → Bool) (o1 o2 : RangeOrder) (resp : Response)
    (s : Metrics) (h : resp.StatusCode ≠ 200) :
    CollectDeviceMetrics valid o1 o2 (.response resp) s
      = (.returnedNil, ⟨s.apiCalls + 2, s.apiErrors + 1, 0, s.gauges⟩) := by
  simp [CollectDeviceMetrics, fetchDeviceStatus, StatusOK, h, IncApiCallCounter,
    IncApiErrorsCounter, SetUpMetric]

theorem collect_decodeError (valid : String → Bool) (o1 o2 : RangeOrder) (resp : Response)
    (s : Metrics) (err : String) (h : resp.StatusCode = 200) (hd : resp.Decoded = .error err) :
    CollectDeviceMetrics valid o1 o2 (.response resp) s
      = (.returnedNil, ⟨s.apiCalls + 2, s.apiErrors + 1, 0, s.gauges⟩) := by
  simp [CollectDeviceMetrics, fetchDeviceStatus, StatusOK, h, hd, IncApiCallCounter,
    IncApiErrorsCounter, SetUpMetric]

theorem collect_success (valid : String → Bool) (o1 o2 : RangeOrder) (resp : Response)
    (s : Metrics) (rs : List DeviceStatus) (h : resp.StatusCode = 200)
    (hd : resp.Decoded = .ok rs) :
    CollectDeviceMetrics valid o1 o2 (.response resp) s
      = match setGauges valid (o2.visit (filterConnected (o1.visit (buildDeviceStatuses rs))))
          (IncApiCallCounter (IncApiCallCounter s)) with
        | .ok r => (.returned (filterConnected (o1.visit (buildDeviceStatuses rs))), r)
        | .error r => (.panicked (filterConnected (o1.visit (buildDeviceStatuses rs))), r) := by
  simp [CollectDeviceMetrics, fetchDeviceStatus, StatusOK, h, hd]

theorem collect_success_cases (valid : String → Bool) (o1 o2 : RangeOrder) (resp : Response)
    (s : Metrics) (rs : List DeviceStatus) (h : resp.StatusCode = 200)
    (hd : resp.Decoded = .ok rs) :
    ∃ r, (setGauges valid (o2.visit (filterConnected (o1.visit (buildDeviceStatuses rs))))
          (IncApiCallCounter (IncApiCallCounter s)) = .ok r ∧
        CollectDeviceMetrics valid o1 o2 (.response resp) s
          = (.returned (filterConnected (o1.visit (buildDeviceStatuses rs))), r)) ∨
      (setGauges valid (o2.visit (filterConnected (o1.visit (buildDeviceStatuses rs))))
          (IncApiCallCounter (IncApiCallCounter s)) = .error r ∧
        CollectDeviceMetrics valid o1 o2 (.response resp) s
          = (.panicked (filterConnected (o1.visit (buildDeviceStatuses rs))), r)) := by
  rw [collect_success valid o1 o2 resp s rs h hd]
  cases hg : setGauges valid (o2.visit (filterConnected (o1.visit (buildDeviceStatuses rs))))
      (IncApiCallCounter (IncApiCallCounter s)) with
  | ok r => exact ⟨r, Or.inl ⟨rfl, rfl⟩⟩
  | error r => exact ⟨r, Or.inr ⟨rfl, rfl⟩⟩

theorem collect_returns_of_accepts (valid : String → Bool) (o1 o2 : RangeOrder)
    (resp : Response) (s : Metrics) (rs : List DeviceStatus) (h : resp.StatusCode = 200)
    (hd : resp.Decoded = .ok rs)
    (hacc : ∀ d ∈ rs, d.Status = "connected" → lastWithID rs d.DeviceID = some d →
      accepts valid s.gauges (metricName d.DeviceID d) = true) :
    ∃ r, setGauges valid (o2.visit (filterConnected (o1.visit (buildDeviceStatuses rs))))
          (IncApiCallCounter (IncApiCallCounter s)) = .ok r ∧
      CollectDeviceMetrics valid o1 o2 (.response resp) s
        = (.returned (filterConnected (o1.visit (buildDeviceStatuses rs))), r) := by
  have hall : ∀ kv ∈ o2.visit (filterConnected (o1.visit (buildDeviceStatuses rs))),
      accepts valid (IncApiCallCounter (IncApiCallCounter s)).gauges
        (metricName kv.1 kv.2) = true := by
    intro kv hkv
    have hm := (o2.visit_perm _).mem_iff.mp hkv
    obtain ⟨hl, hc⟩ := (mem_filterConnected rs o1 kv.1 kv.2).mp hm
    have hmem := lastWithID_mem rs kv.1 kv.2 hl
    have := hacc kv.2 hmem.1 hc (by rw [hmem.2]; exact hl)
    rw [hmem.2] at this
    exact this
  obtain ⟨r, hr⟩ := setGauges_ok_of_accepts valid _ _ hall
  refine ⟨r, hr, ?_⟩
  rw [collect_success valid o1 o2 resp s rs h hd, hr]

/-! ## Gauge names -/

theorem metricName_eq_renderGauge (r : DeviceStatus) :
    metricName r.DeviceID r = renderGauge "zerotrust_devices_up" (labelSet r) := by
  apply String.ext
  simp [metricName, renderGauge, labelSet, renderLabels, renderLabel, String.data_append]

theorem quote_split (a b x y : List Char) (ha : '"' ∉ a) (hb : '"' ∉ b)
    (h : a ++ '"' :: x = b ++ '"' :: y) : a = b ∧ x = y := by
  induction a generalizing b with
  | nil =>
    cases b with
    | nil => simpa using h
    | cons c b =>
      simp at h
      simp [← h.1] at hb
  | cons c a ih =>
    cases b with
    | nil =>
      simp at h
      simp [h.1] at ha
    | cons d b =>
      simp at h ha hb
      obtain ⟨h1, h2⟩ := h
      have := ih b ha.2 hb.2 h2
      exact ⟨by rw [h1, this.1], this.2⟩

theorem metricName_inj (r s : DeviceStatus) (hr : quoteFree r) (hs : quoteFree s)
    (h : metricName r.DeviceID r = metricName s.DeviceID s) : labelSet r = labelSet s := by
  simp [quoteFree, labelSet] at hr hs
  obtain ⟨hr1, hr2, hr3, hr4, hr5, hr6, hr7⟩ := hr
  obtain ⟨hs1, hs2, hs3, hs4, hs5, hs6, hs7⟩ := hs
  have h := congrArg String.data h
  simp [metricName, String.data_append] at h
  obtain ⟨e1, h⟩ := quote_split _ _ _ _ hr1 hs1 h
  simp at h
  obtain ⟨e2, h⟩ := quote_split _ _ _ _ hr2 hs2 h
  simp at h
  obtain ⟨e3, h⟩ := quote_split _ _ _ _ hr3 hs3 h
  simp at h
  obtain ⟨e4, h⟩ := quote_split _ _ _ _ hr4 hs4 h
  simp at h
  obtain ⟨e5, h⟩ := quote_split _ _ _ _ hr5 hs5 h
  simp at h
  obtain ⟨e6, h⟩ := quote_split _ _ _ _ hr6 hs6 h
  simp at h
  have e7 := h
  simp [labelSet, String.ext e1, String.ext e2, String.ext e3, String.ext e4, String.ext e5,
    String.ext e6, String.ext e7]


/-! ## The query window -/

theorem unix_add_ten_minutes (now : Time) :
    Time.Unix (Time.Add now (-Minute * 10)) = Time.Unix now - 600 := by
  unfold Time.Unix Time.Add Minute Second
  rw [Int.fdiv_eq_ediv _ (by decide), Int.fdiv_eq_ediv _ (by decide)]
  omega

theorem window_length (now1 now2 : Time) :
    timeEnd now1 - timeStart now2 = (600 - (Time.Unix now2 - Time.Unix now1)) * Second ∧
    timeEnd now1 % Second = 0 ∧ timeStart now2 % Second = 0 := by
  unfold timeEnd timeStart timeUnix
  rw [unix_add_ten_minutes]
  exact ⟨by ring, by simp, by simp⟩

theorem accepts_of_setGauges_ok (valid : String → Bool)
    (visited : List (String × DeviceStatus)) (s r : Metrics)
    (h : setGauges valid visited s = .ok r) :
    ∀ kv ∈ visited, accepts valid s.gauges (metricName kv.1 kv.2) = true := by
  induction visited generalizing s with
  | nil => intro kv hkv; simp at hkv
  | cons e rest ih =>
    simp only [setGauges] at h
    cases hg : setGauge valid s (metricName e.1 e.2) 1 with
    | none =>
      rw [hg] at h
      exact absurd h (by simp)
    | some s1 =>
      rw [hg] at h
      have hs1 := setGauge_some valid s s1 _ 1 hg
      have hhead : accepts valid s.gauges (metricName e.1 e.2) = true := by
        unfold setGauge at hg
        unfold accepts
        cases hm : mapGet s.gauges (metricName e.1 e.2) with
        | some w => simp
        | none =>
          rw [hm] at hg
          by_cases hv : valid (metricName e.1 e.2) = true
          · simp [hv]
          · simp [hv] at hg
      intro kv hkv
      rcases List.mem_cons.mp hkv with hkv | hkv
      · rw [hkv]
        exact hhead
      · have := ih s1 h kv hkv
        subst hs1
        by_cases hn : metricName e.1 e.2 = metricName kv.1 kv.2
        · rw [← hn]
          exact hhead
        · unfold accepts at this ⊢
          simpa [mapGet_mapSet, hn] using this

theorem collect_returned_iff_accepts (valid : String → Bool) (o1 o2 : RangeOrder)
    (resp : Response) (s : Metrics) (rs : List DeviceStatus) (h : resp.StatusCode = 200)
    (hd : resp.Decoded = .ok rs) :
    (∃ filtered, (CollectDeviceMetrics valid o1 o2 (.response resp) s).1 = .returned filtered)
      ↔ ∀ d ∈ rs, d.Status = "connected" → lastWithID rs d.DeviceID = some d →
          accepts valid s.gauges (metricName d.DeviceID d) = true := by
  constructor
  · rintro ⟨filtered, hf⟩ d _ hc hl
    obtain ⟨r, hr | hr⟩ := collect_success_cases valid o1 o2 resp s rs h hd
    · have hm := (mem_filterConnected rs o1 d.DeviceID d).mpr ⟨hl, hc⟩
      exact accepts_of_setGauges_ok valid _ _ r hr.1 (d.DeviceID, d)
        ((o2.visit_perm _).mem_iff.mpr hm)
    · rw [hr.2] at hf
      exact absurd hf (by simp)
  · intro hacc
    obtain ⟨r, _, hr⟩ := collect_returns_of_accepts valid o1 o2 resp s rs h hd hacc
    exact ⟨_, by rw [hr]⟩

theorem collect_returned_eq (valid : String → Bool) (o1 o2 : RangeOrder)
    (resp : Response) (s : Metrics) (rs : List DeviceStatus) (h : resp.StatusCode = 200)
    (hd : resp.Decoded = .ok rs) (filtered : List (String × DeviceStatus))
    (hf : (CollectDeviceMetrics valid o1 o2 (.response resp) s).1 = .returned filtered) :
    filtered = filterConnected (o1.visit (buildDeviceStatuses rs)) ∧
    setGauges valid (o2.visit filtered) (IncApiCallCounter (IncApiCallCounter s))
      = .ok (CollectDeviceMetrics valid o1 o2 (.response resp) s).2 := by
  obtain ⟨r, hr | hr⟩ := collect_success_cases valid o1 o2 resp s rs h hd
  · rw [hr.2] at hf ⊢
    injection hf with hf
    subst hf
    exact ⟨rfl, hr.1⟩
  · rw [hr.2] at hf
    exact absurd hf (by simp)

theorem length_mapSet_of_none {α : Type} (g : List (String × α)) (k : String) (v : α)
    (h : mapGet g k = none) : (mapSet g k v).length = g.length + 1 := by
  induction g with
  | nil => simp [mapSet]
  | cons e rest ih =>
    obtain ⟨a, b⟩ := e
    by_cases hk : a = k
    · simp [mapGet, hk] at h
    · simp only [mapGet, hk, if_false] at h
      simp [mapSet, hk, ih h]

theorem setGauges_ok_length (valid : String → Bool) (visited : List (String × DeviceStatus))
    (s r : Metrics) (h : setGauges valid visited s = .ok r)
    (hn : (visited.map (fun kv => metricName kv.1 kv.2)).Nodup)
    (hnew : ∀ n ∈ visited.map (fun kv => metricName kv.1 kv.2), mapGet s.gauges n = none) :
    r.gauges.length = s.gauges.length + visited.length := by
  induction visited generalizing s with
  | nil =>
    simp only [setGauges] at h
    injection h with h
    subst h
    simp
  | cons e rest ih =>
    simp only [setGauges] at h
    cases hg : setGauge valid s (metricName e.1 e.2) 1 with
    | none =>
      rw [hg] at h
      exact absurd h (by simp)
    | some s1 =>
      rw [hg] at h
      have hs1 := setGauge_some valid s s1 _ 1 hg
      simp only [List.map_cons, List.nodup_cons] at hn
      have hhead : mapGet s.gauges (metricName e.1 e.2) = none :=
        hnew _ (by simp)
      have hrest : ∀ n ∈ rest.map (fun kv => metricName kv.1 kv.2),
          mapGet s1.gauges n = none := by
        intro n hin
        have hne : ¬ metricName e.1 e.2 = n := by
          intro e1
          rw [← e1] at hin
          exact hn.1 hin
        subst hs1
        simp only [mapGet_mapSet, hne, if_false]
        exact hnew n (List.mem_cons_of_mem _ hin)
      rw [ih s1 h hn.2 hrest]
      subst hs1
      simp only [length_mapSet_of_none _ _ _ hhead, List.length_cons]
      omega

/-! ## The validator on sample names -/

theorem validateMetric_sample_names :
    validateMetric (metricName "a" (sampleDevice "a" "x" "connected")) = true ∧
    validateMetric (metricName "q" quoteDevice) = false ∧
    validateMetric (metricName "a" backslashDevice) = false := by
  decide

theorem double_quote_name_panics :
    CollectDeviceMetrics validateMetric .forward .forward
      (okResponse quoteBody [quoteDevice]) Metrics.zero
      = (.panicked [("q", quoteDevice)], ⟨2, 0, 0, []⟩) := by
  decide

/-! ## The claims -/

/-- C1, as stated, fails: the response `repeatedBody` carries the device ID `a` twice, first
with status `connected` and then with status `disconnected`; the first record is a connected
record of the response, yet the map returned by `CollectDeviceMetrics` is empty. -/
theorem connected_record_lost_on_repeated_id :
    sampleDevice "a" "x" "connected" ∈ repeatedResult ∧
    (sampleDevice "a" "x" "connected").Status = "connected" ∧
    (CollectDeviceMetrics validateMetric .forward .forward
      (okResponse repeatedBody repeatedResult) Metrics.zero).1 = .returned [] := by
  decide

/-- C1, amended: for every successfully decoded response (any list of records, repeated device
IDs included), whatever map `CollectDeviceMetrics` returns has unique keys, contains exactly
once and under its `DeviceID` every record that is connected and is the last record of the
response with its device ID, and contains nothing else: every entry is such a record under its
own `DeviceID`, so no entry has a status other than `connected`. The call does return a map
exactly when the registry accepts the gauge name of every such record. -/
theorem filtered_is_last_connected_records (valid : String → Bool) (o1 o2 : RangeOrder)
    (resp : Response) (s : Metrics) (rs : List DeviceStatus) (h200 : resp.StatusCode = 200)
    (hdec : resp.Decoded = .ok rs) :
    (∀ filtered, (CollectDeviceMetrics valid o1 o2 (.response resp) s).1 = .returned filtered →
      (filtered.map Prod.fst).Nodup ∧
      (∀ r ∈ rs, r.Status = "connected" → lastWithID rs r.DeviceID = some r →
        filtered.countP (fun e => e = (r.DeviceID, r)) = 1 ∧
          mapGet filtered r.DeviceID = some r) ∧
      (∀ k v, (k, v) ∈ filtered →
        v.Status = "connected" ∧ k = v.DeviceID ∧ v ∈ rs ∧ lastWithID rs k = some v)) ∧
    ((∃ filtered, (CollectDeviceMetrics valid o1 o2 (.response resp) s).1 = .returned filtered)
      ↔ ∀ r ∈ rs, r.Status = "connected" → lastWithID rs r.DeviceID = some r →
          accepts valid s.gauges (metricName r.DeviceID r) = true) := by
  refine ⟨?_, collect_returned_iff_accepts valid o1 o2 resp s rs h200 hdec⟩
  intro filtered hf
  obtain ⟨hfe, -⟩ := collect_returned_eq valid o1 o2 resp s rs h200 hdec filtered hf
  subst hfe
  refine ⟨keys_nodup_filterConnected _, ?_, ?_⟩
  · intro r _ hc hl
    have hm := (mem_filterConnected rs o1 r.DeviceID r).mpr ⟨hl, hc⟩
    have hn := keys_nodup_filterConnected (o1.visit (buildDeviceStatuses rs))
    exact ⟨countP_eq_one_of_mem _ _ (nodup_of_keys_nodup _ hn) hm, mapGet_of_mem _ _ _ hn hm⟩
  · intro k v hm
    obtain ⟨hl, hc⟩ := (mem_filterConnected rs o1 k v).mp hm
    have := lastWithID_mem rs k v hl
    exact ⟨hc, this.2.symm, this.1, hl⟩

/-- C1, amended, on the response `fleetBody` (devices `a` and `c` connected, `b` not), with
the validator of the metrics library: the names are accepted, a map is returned, and it is
as described. -/
theorem filtered_is_last_connected_records_witness :
    (200 : Int) = 200 ∧
    (∃ filtered, (CollectDeviceMetrics validateMetric .forward .backward
        (.response ⟨200, "200 OK", fleetBody, .ok fleetResult⟩) Metrics.zero).1
          = .returned filtered) ∧
    (∀ filtered, (CollectDeviceMetrics validateMetric .forward .backward
        (.response ⟨200, "200 OK", fleetBody, .ok fleetResult⟩) Metrics.zero).1
          = .returned filtered →
      (filtered.map Prod.fst).Nodup ∧
      (∀ r ∈ fleetResult, r.Status = "connected" → lastWithID fleetResult r.DeviceID = some r →
        filtered.countP (fun e => e = (r.DeviceID, r)) = 1 ∧
          mapGet filtered r.DeviceID = some r) ∧
      (∀ k v, (k, v) ∈ filtered →
        v.Status = "connected" ∧ k = v.DeviceID ∧ v ∈ fleetResult ∧
          lastWithID fleetResult k = some v)) :=
  ⟨rfl,
    (filtered_is_last_connected_records validateMetric .forward .backward
      ⟨200, "200 OK", fleetBody, .ok fleetResult⟩ Metrics.zero fleetResult rfl rfl).2.mpr
      (by decide),
    (filtered_is_last_connected_records validateMetric .forward .backward
      ⟨200, "200 OK", fleetBody, .ok fleetResult⟩ Metrics.zero fleetResult rfl rfl).1⟩

/-- C2, the code at the failing inputs: whenever a response arrives (whatever its status code
and whether or not its body decodes), one cycle of `CollectDeviceMetrics` leaves the API-call
counter at its value before the cycle plus 2, not plus 1. -/
theorem api_calls_counted_twice_on_response (valid : String → Bool) (o1 o2 : RangeOrder)
    (resp : Response) (s : Metrics) :
    (CollectDeviceMetrics valid o1 o2 (.response resp) s).2.apiCalls = s.apiCalls + 2 := by
  by_cases h : resp.StatusCode = 200
  · cases hd : resp.Decoded with
    | error err => rw [collect_decodeError valid o1 o2 resp s err h hd]
    | ok rs =>
      obtain ⟨r, hr | hr⟩ := collect_success_cases valid o1 o2 resp s rs h hd
      · rw [hr.2, (setGauges_frame valid _ _ r (Or.inl hr.1)).1]
        rfl
      · rw [hr.2, (setGauges_frame valid _ _ r (Or.inr hr.1)).1]
        rfl
  · rw [collect_badStatus valid o1 o2 resp s h]

/-- C3, the code at the failing input: when `http.NewRequestWithContext` fails, one cycle of
`CollectDeviceMetrics` returns nil, leaves the gauges alone and sets `up` to 0, but leaves the
API-error counter at its value before the cycle plus 2, not plus 1. -/
theorem api_errors_counted_twice_on_request_error (valid : String → Bool)
    (o1 o2 : RangeOrder) (err : String) (s : Metrics) :
    (CollectDeviceMetrics valid o1 o2 (.requestError err) s).1 = .returnedNil ∧
    (CollectDeviceMetrics valid o1 o2 (.requestError err) s).2.gauges = s.gauges ∧
    (CollectDeviceMetrics valid o1 o2 (.requestError err) s).2.up = 0 ∧
    (CollectDeviceMetrics valid o1 o2 (.requestError err) s).2.apiErrors
      = s.apiErrors + 2 := by
  rw [collect_requestError]
  exact ⟨rfl, rfl, rfl, rfl⟩

/-- C4, as stated, fails: a cycle whose send fails leaves `up` at 0, and the successful cycle
that follows it (status 200, body `fleetBody`) does not bring `up` back to 1. -/
theorem up_not_restored_by_successful_cycle :
    (CollectDeviceMetrics validateMetric .forward .forward (okResponse fleetBody fleetResult)
      (CollectDeviceMetrics validateMetric .forward .forward (.sendError "timeout")
        Metrics.zero).2).2.up ≠ 1 := by
  decide

/-- C4, amended: a cycle of `CollectDeviceMetrics` whose fetch succeeds (status 200 and a
decodable body, a body with zero connected devices included) leaves the health gauge `up` at
the value it had before the cycle and leaves the API-error counter unchanged. -/
theorem successful_cycle_keeps_up_and_errors (valid : String → Bool) (o1 o2 : RangeOrder)
    (resp : Response) (s : Metrics) (rs : List DeviceStatus) (h200 : resp.StatusCode = 200)
    (hdec : resp.Decoded = .ok rs) :
    (CollectDeviceMetrics valid o1 o2 (.response resp) s).2.up = s.up ∧
    (CollectDeviceMetrics valid o1 o2 (.response resp) s).2.apiErrors = s.apiErrors := by
  obtain ⟨r, hr | hr⟩ := collect_success_cases valid o1 o2 resp s rs h200 hdec
  · have hf := setGauges_frame valid _ _ r (Or.inl hr.1)
    rw [hr.2]
    exact ⟨hf.2.2.1, hf.2.1⟩
  · have hf := setGauges_frame valid _ _ r (Or.inr hr.1)
    rw [hr.2]
    exact ⟨hf.2.2.1, hf.2.1⟩

/-- C4, amended, on the empty response `emptyBody` and a state with `up` at 0. -/
theorem successful_cycle_keeps_up_and_errors_witness :
    (200 : Int) = 200 ∧
    (CollectDeviceMetrics validateMetric .forward .forward
      (.response ⟨200, "200 OK", emptyBody, .ok []⟩) ⟨1, 1, 0, []⟩).2.up = 0 ∧
    (CollectDeviceMetrics validateMetric .forward .forward
      (.response ⟨200, "200 OK", emptyBody, .ok []⟩) ⟨1, 1, 0, []⟩).2.apiErrors = 1 :=
  ⟨rfl, successful_cycle_keeps_up_and_errors validateMetric .forward .forward
    ⟨200, "200 OK", emptyBody, .ok []⟩ ⟨1, 1, 0, []⟩ [] rfl rfl⟩

/-- C5: after every successful cycle of `CollectDeviceMetrics`, for every record of the returned
map the registry holds the gauge whose identity is the name `zerotrust_devices_up` with the
labels `device_id`, `device_name`, `user_email`, `colo`, `mode`, `platform`, `version`, in that
order and taken from the record's `DeviceID`, `DeviceName`, `PersonEmail`, `Colo`, `Mode`,
`Platform`, `Version` (empty strings included), and that gauge has the value 1. After a
successful fetch the call returns its map exactly when the registry accepts the gauge name of
every connected record that is the last of its device ID; otherwise it panics and returns
nothing. -/
theorem gauge_is_one_for_every_filtered_record (valid : String → Bool) (o1 o2 : RangeOrder)
    (resp : Response) (s : Metrics) (rs : List DeviceStatus) (h200 : resp.StatusCode = 200)
    (hdec : resp.Decoded = .ok rs) :
    (∀ filtered, (CollectDeviceMetrics valid o1 o2 (.response resp) s).1 = .returned filtered →
      ∀ k v, (k, v) ∈ filtered →
        mapGet (CollectDeviceMetrics valid o1 o2 (.response resp) s).2.gauges
          (renderGauge "zerotrust_devices_up" (labelSet v)) = some 1) ∧
    ((∃ filtered, (CollectDeviceMetrics valid o1 o2 (.response resp) s).1 = .returned filtered)
      ↔ ∀ r ∈ rs, r.Status = "connected" → lastWithID rs r.DeviceID = some r →
          accepts valid s.gauges (metricName r.DeviceID r) = true) := by
  refine ⟨?_, collect_returned_iff_accepts valid o1 o2 resp s rs h200 hdec⟩
  intro filtered hf k v hm
  obtain ⟨hfe, hok⟩ := collect_returned_eq valid o1 o2 resp s rs h200 hdec filtered hf
  rw [setGauges_ok_gauges valid _ _ _ hok]
  rw [hfe] at hm
  have hk : k = v.DeviceID :=
    (lastWithID_mem rs k v ((mem_filterConnected rs o1 k v).mp hm).1).2.symm
  have hin : renderGauge "zerotrust_devices_up" (labelSet v) ∈
      (o2.visit filtered).map (fun kv => metricName kv.1 kv.2) := by
    refine List.mem_map.mpr ⟨(k, v), (o2.visit_perm _).mem_iff.mpr (by rw [hfe]; exact hm), ?_⟩
    rw [hk]
    exact metricName_eq_renderGauge v
  rw [if_pos hin]

/-- C5 on the response `fleetBody`, with the validator of the metrics library: the names are
accepted, the map is returned, and every record of it has its gauge at 1. -/
theorem gauge_is_one_for_every_filtered_record_witness :
    (200 : Int) = 200 ∧
    (∃ filtered, (CollectDeviceMetrics validateMetric .backward .forward
        (.response ⟨200, "200 OK", fleetBody, .ok fleetResult⟩) Metrics.zero).1
          = .returned filtered) ∧
    (∀ filtered, (CollectDeviceMetrics validateMetric .backward .forward
        (.response ⟨200, "200 OK", fleetBody, .ok fleetResult⟩) Metrics.zero).1
          = .returned filtered →
      ∀ k v, (k, v) ∈ filtered →
        mapGet (CollectDeviceMetrics validateMetric .backward .forward
          (.response ⟨200, "200 OK", fleetBody, .ok fleetResult⟩) Metrics.zero).2.gauges
          (renderGauge "zerotrust_devices_up" (labelSet v)) = some 1) :=
  ⟨rfl,
    (gauge_is_one_for_every_filtered_record validateMetric .backward .forward
      ⟨200, "200 OK", fleetBody, .ok fleetResult⟩ Metrics.zero fleetResult rfl rfl).2.mpr
      (by decide),
    (gauge_is_one_for_every_filtered_record validateMetric .backward .forward
      ⟨200, "200 OK", fleetBody, .ok fleetResult⟩ Metrics.zero fleetResult rfl rfl).1⟩

/-- C6: a cycle of `CollectDeviceMetrics`, successful or not, leaves in place and at its value
every gauge of the registry whose name is not the gauge name of a record of this cycle's
filtered map. -/
theorem absent_gauges_untouched (valid : String → Bool) (o1 o2 : RangeOrder)
    (out : HttpOutcome) (s : Metrics) (n : String) (v : Int)
    (hpre : mapGet s.gauges n = some v)
    (habs : n ∉ gaugeNames (CollectDeviceMetrics valid o1 o2 out s).1) :
    mapGet (CollectDeviceMetrics valid o1 o2 out s).2.gauges n = some v := by
  cases out with
  | requestError err => rw [collect_requestError]; exact hpre
  | sendError err => rw [collect_sendError]; exact hpre
  | response resp =>
    by_cases h : resp.StatusCode = 200
    · cases hd : resp.Decoded with
      | error err => rw [collect_decodeError valid o1 o2 resp s err h hd]; exact hpre
      | ok rs =>
        have hnot : n ∉ gaugeNames (CollectDeviceMetrics valid o1 o2 (.response resp) s).1 →
            n ∉ (o2.visit (filterConnected (o1.visit (buildDeviceStatuses rs)))).map
              (fun kv => metricName kv.1 kv.2) := by
          intro hab hin
          apply hab
          obtain ⟨kv, hkv, hname⟩ := List.mem_map.mp hin
          have hm := (o2.visit_perm _).mem_iff.mp hkv
          obtain ⟨r, hr | hr⟩ := collect_success_cases valid o1 o2 resp s rs h hd
          · rw [hr.2]
            exact List.mem_map.mpr ⟨kv, hm, hname⟩
          · rw [hr.2]
            exact List.mem_map.mpr ⟨kv, hm, hname⟩
        have hn := hnot habs
        obtain ⟨r, hr | hr⟩ := collect_success_cases valid o1 o2 resp s rs h hd
        · rw [hr.2]
          rw [(setGauges_frame valid _ _ r (Or.inl hr.1)).2.2.2 n hn]
          exact hpre
        · rw [hr.2]
          rw [(setGauges_frame valid _ _ r (Or.inr hr.1)).2.2.2 n hn]
          exact hpre
    · rw [collect_badStatus valid o1 o2 resp s h]; exact hpre

/-- C6 on a registry that holds `staleGauge` at 1 and a cycle over the response `fleetBody`,
which does not mention that device. -/
theorem absent_gauges_untouched_witness :
    mapGet (Metrics.mk 4 0 1 [(staleGauge, 1)]).gauges staleGauge = some 1 ∧
    staleGauge ∉ gaugeNames (CollectDeviceMetrics validateMetric .forward .backward
      (okResponse fleetBody fleetResult) (Metrics.mk 4 0 1 [(staleGauge, 1)])).1 ∧
    mapGet (CollectDeviceMetrics validateMetric .forward .backward
      (okResponse fleetBody fleetResult) (Metrics.mk 4 0 1 [(staleGauge, 1)])).2.gauges
        staleGauge = some 1 :=
  ⟨by decide, by decide,
    absent_gauges_untouched validateMetric .forward .backward
      (okResponse fleetBody fleetResult) (Metrics.mk 4 0 1 [(staleGauge, 1)]) staleGauge 1
      (by decide) (by decide)⟩

/-- C7: for every decoded result list, `fetchDeviceStatus` returns a map whose keys are exactly
the device IDs occurring in the list, each key once, which maps every such ID to the last
record of the list carrying it, and whose size is the number of distinct IDs of the list. -/
theorem result_set_last_record_wins (status body : String) (rs : List DeviceStatus)
    (s : Metrics) :
    ∃ m, (fetchDeviceStatus (.response ⟨200, status, body, .ok rs⟩) s).1 = .ok m ∧
      (∀ k, k ∈ m.map Prod.fst ↔ k ∈ rs.map DeviceStatus.DeviceID) ∧
      (m.map Prod.fst).Nodup ∧
      (∀ k, mapGet m k = lastWithID rs k) ∧
      m.length = (rs.map DeviceStatus.DeviceID).dedup.length :=
  ⟨buildDeviceStatuses rs, by simp [fetchDeviceStatus, StatusOK],
    mem_keys_buildDeviceStatuses rs, keys_nodup_buildDeviceStatuses rs,
    mapGet_buildDeviceStatuses rs, length_buildDeviceStatuses rs⟩

/-- C8, as stated, fails: a response with status code 201, inside 200..299, and a decodable
body is rejected with the upstream error instead of being decoded. -/
theorem status_201_is_rejected :
    (fetchDeviceStatus (.response ⟨201, "201 Created", fleetBody, .ok fleetResult⟩)
      Metrics.zero).1
      = .error ("failed to fetch device status: 201 Created, response body: " ++ fleetBody) := by
  rfl

/-- C8, amended: `fetchDeviceStatus` rejects a response as an upstream error exactly when its
status code is not 200: for every response whose status code differs from 200 it returns no
data and an error whose message carries the status line and the raw body, and for every
response whose status code is 200 it does not return that error but hands back what decoding
the body gives (the decoder's error, or the map built from the decoded list). -/
theorem upstream_error_iff_status_not_200 (resp : Response) (s : Metrics) :
    (resp.StatusCode ≠ 200 →
      (fetchDeviceStatus (.response resp) s).1
        = .error ("failed to fetch device status: " ++ resp.Status ++ ", response body: "
            ++ resp.Body)) ∧
    (resp.StatusCode = 200 →
      (fetchDeviceStatus (.response resp) s).1
        = match resp.Decoded with
          | .error err => .error err
          | .ok rs => .ok (buildDeviceStatuses rs)) := by
  constructor
  · intro h
    simp [fetchDeviceStatus, StatusOK, h, upstreamError]
  · intro h
    cases hd : resp.Decoded <;> simp [fetchDeviceStatus, StatusOK, h, hd]

/-- C8, amended, on a response with status 500 and on a response with status 200. -/
theorem upstream_error_iff_status_not_200_witness :
    ((500 : Int) ≠ 200 ∧
      (fetchDeviceStatus (.response ⟨500, "500 Internal Server Error", "oops", .error "eof"⟩)
        Metrics.zero).1
        = .error ("failed to fetch device status: " ++ "500 Internal Server Error"
            ++ ", response body: " ++ "oops")) ∧
    ((200 : Int) = 200 ∧
      (fetchDeviceStatus (.response ⟨200, "200 OK", fleetBody, .ok fleetResult⟩)
        Metrics.zero).1 = .ok (buildDeviceStatuses fleetResult)) :=
  ⟨⟨by decide, (upstream_error_iff_status_not_200
      ⟨500, "500 Internal Server Error", "oops", .error "eof"⟩ Metrics.zero).1 (by decide)⟩,
   ⟨rfl, (upstream_error_iff_status_not_200
      ⟨200, "200 OK", fleetBody, .ok fleetResult⟩ Metrics.zero).2 rfl⟩⟩

/-- C9, the code at the failing input: with the first clock reading at
2024-07-01T12:00:00.999999999Z and the second one nanosecond later, `time_end` is 12:00:00 and
`time_start` is 11:50:01 of that day, both whole seconds, 599 seconds apart and not 600. -/
theorem window_is_599_seconds_across_a_second_boundary :
    queryTime (queryParams 1719835200999999999 1719835201000000000) "time_end"
      = some (1719835200 * Second) ∧
    queryTime (queryParams 1719835200999999999 1719835201000000000) "time_start"
      = some (1719834601 * Second) ∧
    1719835200 * Second - 1719834601 * Second = 599 * Second := by
  decide

/-- C10, as stated, fails: the record of `backslashBody` has no double quote in any label
value, but its device name ends in a backslash; the registry rejects the gauge name, the call
panics, and the filtered map with its one entry sets no gauge at all. -/
theorem quote_free_name_rejected_by_registry :
    quoteFree backslashDevice ∧
    CollectDeviceMetrics validateMetric .forward .forward
      (okResponse backslashBody [backslashDevice]) Metrics.zero
      = (.panicked [("a", backslashDevice)], ⟨2, 0, 0, []⟩) := by
  decide

/-- C10, amended: two records whose seven label values hold no double quote get the same gauge
name from `CollectDeviceMetrics` only if the seven label values agree one by one; hence, when
the records of the filtered map are free of double quotes and the registry accepts their gauge
names, a cycle whose filtered map has n entries returns it and sets exactly n distinct
gauges: the n names are pairwise distinct, after the cycle the registry holds 1 under each
of them and is unchanged under every other name, and it has grown by n entries when none of
the names was registered before. -/
theorem metricName_injective_on_quote_free (valid : String → Bool) (r t : DeviceStatus)
    (o1 o2 : RangeOrder) (resp : Response) (s : Metrics) (rs : List DeviceStatus)
    (hr : quoteFree r) (ht : quoteFree t)
    (h200 : resp.StatusCode = 200) (hdec : resp.Decoded = .ok rs)
    (hq : ∀ d ∈ rs, d.Status = "connected" → lastWithID rs d.DeviceID = some d → quoteFree d)
    (hacc : ∀ d ∈ rs, d.Status = "connected" → lastWithID rs d.DeviceID = some d →
      accepts valid s.gauges (metricName d.DeviceID d) = true) :
    (metricName r.DeviceID r = metricName t.DeviceID t →
      r.DeviceID = t.DeviceID ∧ r.DeviceName = t.DeviceName ∧ r.PersonEmail = t.PersonEmail ∧
      r.Colo = t.Colo ∧ r.Mode = t.Mode ∧ r.Platform = t.Platform ∧ r.Version = t.Version) ∧
    ∃ filtered, (CollectDeviceMetrics valid o1 o2 (.response resp) s).1 = .returned filtered ∧
      (gaugeNames (CollectDeviceMetrics valid o1 o2 (.response resp) s).1).Nodup ∧
      (gaugeNames (CollectDeviceMetrics valid o1 o2 (.response resp) s).1).length
        = filtered.length ∧
      (∀ n, mapGet (CollectDeviceMetrics valid o1 o2 (.response resp) s).2.gauges n
        = if n ∈ gaugeNames (CollectDeviceMetrics valid o1 o2 (.response resp) s).1
          then some 1 else mapGet s.gauges n) ∧
      ((∀ n ∈ gaugeNames (CollectDeviceMetrics valid o1 o2 (.response resp) s).1,
          mapGet s.gauges n = none) →
        (CollectDeviceMetrics valid o1 o2 (.response resp) s).2.gauges.length
          = s.gauges.length + filtered.length) := by
  refine ⟨?_, ?_⟩
  · intro h
    have := metricName_inj r t hr ht h
    simpa [labelSet] using this
  · obtain ⟨r1, hok, hC⟩ := collect_returns_of_accepts valid o1 o2 resp s rs h200 hdec hacc
    have hperm := o2.visit_perm (filterConnected (o1.visit (buildDeviceStatuses rs)))
    have hnd : ((filterConnected (o1.visit (buildDeviceStatuses rs))).map
        (fun kv => metricName kv.1 kv.2)).Nodup := by
      refine List.Nodup.map_on ?_
        (nodup_of_keys_nodup _
          (keys_nodup_filterConnected (o1.visit (buildDeviceStatuses rs))))
      rintro ⟨k, v⟩ hkv ⟨k', v'⟩ hkv' h
      have h1 := (mem_filterConnected rs o1 k v).mp hkv
      have h2 := (mem_filterConnected rs o1 k' v').mp hkv'
      have m1 := lastWithID_mem rs k v h1.1
      have m2 := lastWithID_mem rs k' v' h2.1
      simp only at h
      rw [← m1.2, ← m2.2] at h
      have q1 := hq v m1.1 h1.2 (by rw [m1.2]; exact h1.1)
      have q2 := hq v' m2.1 h2.2 (by rw [m2.2]; exact h2.1)
      have hl := metricName_inj v v' q1 q2 h
      have hid : v.DeviceID = v'.DeviceID := by
        simp [labelSet] at hl
        exact hl.1
      have hk : k = k' := by rw [← m1.2, ← m2.2, hid]
      subst hk
      have := h1.1.symm.trans h2.1
      injection this with hv
      rw [hv]
    rw [hC]
    refine ⟨_, rfl, hnd, by simp [gaugeNames], ?_, ?_⟩
    · intro n
      rw [setGauges_ok_gauges valid _ _ _ hok n]
      have hiff : n ∈ (o2.visit (filterConnected (o1.visit (buildDeviceStatuses rs)))).map
            (fun kv => metricName kv.1 kv.2)
          ↔ n ∈ gaugeNames (.returned (filterConnected (o1.visit (buildDeviceStatuses rs)))) :=
        (hperm.map _).mem_iff
      by_cases hin : n ∈ gaugeNames
          (.returned (filterConnected (o1.visit (buildDeviceStatuses rs))))
      · rw [if_pos hin, if_pos (hiff.mpr hin)]
      · rw [if_neg hin, if_neg (fun h => hin (hiff.mp h))]
        rfl
    · intro hnew
      have hpm := hperm.map (fun kv => metricName kv.1 kv.2)
      have hnd2 : ((o2.visit (filterConnected (o1.visit (buildDeviceStatuses rs)))).map
          (fun kv => metricName kv.1 kv.2)).Nodup := hpm.nodup_iff.mpr hnd
      have hnew2 : ∀ n ∈ (o2.visit (filterConnected (o1.visit (buildDeviceStatuses rs)))).map
          (fun kv => metricName kv.1 kv.2),
          mapGet (IncApiCallCounter (IncApiCallCounter s)).gauges n = none :=
        fun n hin => hnew n (hpm.mem_iff.mp hin)
      have hlen := setGauges_ok_length valid
        (o2.visit (filterConnected (o1.visit (buildDeviceStatuses rs))))
        (IncApiCallCounter (IncApiCallCounter s)) r1 hok hnd2 hnew2
      rw [hlen, hperm.length_eq]
      rfl

/-- C10, amended, on two records with the same seven label values (they differ in status
only, so their gauge names agree) and on the response `fleetBody` with the validator of the
metrics library: two entries, two distinct gauges, both at 1, in a registry grown by 2. -/
theorem metricName_injective_on_quote_free_witness :
    quoteFree (sampleDevice "a" "x" "connected") ∧
    quoteFree (sampleDevice "a" "x" "disconnected") ∧
    (200 : Int) = 200 ∧
    (∀ d ∈ fleetResult, d.Status = "connected" →
      lastWithID fleetResult d.DeviceID = some d → quoteFree d) ∧
    (∀ d ∈ fleetResult, d.Status = "connected" →
      lastWithID fleetResult d.DeviceID = some d →
      accepts validateMetric Metrics.zero.gauges (metricName d.DeviceID d) = true) ∧
    metricName (sampleDevice "a" "x" "connected").DeviceID (sampleDevice "a" "x" "connected")
      = metricName (sampleDevice "a" "x" "disconnected").DeviceID
          (sampleDevice "a" "x" "disconnected") ∧
    ((metricName (sampleDevice "a" "x" "connected").DeviceID (sampleDevice "a" "x" "connected")
        = metricName (sampleDevice "a" "x" "disconnected").DeviceID
            (sampleDevice "a" "x" "disconnected") →
      (sampleDevice "a" "x" "connected").DeviceID
        = (sampleDevice "a" "x" "disconnected").DeviceID ∧
      (sampleDevice "a" "x" "connected").DeviceName
        = (sampleDevice "a" "x" "disconnected").DeviceName ∧
      (sampleDevice "a" "x" "connected").PersonEmail
        = (sampleDevice "a" "x" "disconnected").PersonEmail ∧
      (sampleDevice "a" "x" "connected").Colo = (sampleDevice "a" "x" "disconnected").Colo ∧
      (sampleDevice "a" "x" "connected").Mode = (sampleDevice "a" "x" "disconnected").Mode ∧
      (sampleDevice "a" "x" "connected").Platform
        = (sampleDevice "a" "x" "disconnected").Platform ∧
      (sampleDevice "a" "x" "connected").Version
        = (sampleDevice "a" "x" "disconnected").Version) ∧
    ∃ filtered, (CollectDeviceMetrics validateMetric .backward .forward
        (.response ⟨200, "200 OK", fleetBody, .ok fleetResult⟩) Metrics.zero).1
          = .returned filtered ∧
      (gaugeNames (CollectDeviceMetrics validateMetric .backward .forward
        (.response ⟨200, "200 OK", fleetBody, .ok fleetResult⟩) Metrics.zero).1).Nodup ∧
      (gaugeNames (CollectDeviceMetrics validateMetric .backward .forward
        (.response ⟨200, "200 OK", fleetBody, .ok fleetResult⟩) Metrics.zero).1).length
        = filtered.length ∧
      (∀ n, mapGet (CollectDeviceMetrics validateMetric .backward .forward
          (.response ⟨200, "200 OK", fleetBody, .ok fleetResult⟩) Metrics.zero).2.gauges n
        = if n ∈ gaugeNames (CollectDeviceMetrics validateMetric .backward .forward
            (.response ⟨200, "200 OK", fleetBody, .ok fleetResult⟩) Metrics.zero).1
          then some 1 else mapGet Metrics.zero.gauges n) ∧
      ((∀ n ∈ gaugeNames (CollectDeviceMetrics validateMetric .backward .forward
            (.response ⟨200, "200 OK", fleetBody, .ok fleetResult⟩) Metrics.zero).1,
          mapGet Metrics.zero.gauges n = none) →
        (CollectDeviceMetrics validateMetric .backward .forward
          (.response ⟨200, "200 OK", fleetBody, .ok fleetResult⟩) Metrics.zero).2.gauges.length
          = Metrics.zero.gauges.length + filtered.length)) :=
  ⟨by decide, by decide, rfl, by decide, by decide, by decide,
    metricName_injective_on_quote_free validateMetric (sampleDevice "a" "x" "connected")
      (sampleDevice "a" "x" "disconnected") .backward .forward
      ⟨200, "200 OK", fleetBody, .ok fleetResult⟩ Metrics.zero fleetResult
      (by decide) (by decide) rfl rfl (by decide) (by decide)⟩

end Devices
